import Mathlib

/-!
Verification development for the npm-package-check tool (src/main.ts): a
shallow embedding of its data model and operations, followed by theorems
settling the specification's claims.  JavaScript floating-point arithmetic in
`formatBytes` is read as exact real arithmetic; promise scheduling is read
through the `Promise.all` contract (results in submission order).
-/

namespace NpmCheck

/-- JSON-like values as produced by parsing a registry response body.
Numbers are modelled as integers: the sizes at stake are integral byte
counts, and the sign is kept because JSON numbers are signed. -/
inductive JValue where
  | null : JValue
  | bool : Bool → JValue
  | num : Int → JValue
  | str : String → JValue
  | arr : List JValue → JValue
  | obj : List (String × JValue) → JValue

/-- Discriminator for the JavaScript `null` value (property reads on it
throw). -/
def isNullValue : JValue → Bool
  | JValue.null => true
  | _ => false

/-- Property lookup on a parsed JSON object.  `JSON.parse` collapses
duplicate keys, so object field lists are taken duplicate-free and the first
binding wins. -/
def lookupField : List (String × JValue) → String → Option JValue
  | [], _ => none
  | (k, v) :: rest, key => if k = key then some v else lookupField rest key

/-- Models a JavaScript property read `v[key]` on a base value that is not
`null`/`undefined`: objects look the key up, every other value yields
`undefined` (`none`).  Exotic built-in index properties of strings and
arrays, such as `"ab"[0]` or `xs.length`, are not modelled; no claim depends
on them. -/
def jsProp : JValue → String → Option JValue
  | JValue.obj fields, key => lookupField fields key
  | _, _ => none

/-- Models the optional-chaining read `base?.key` where `base` may be
`undefined` (`none`) or `null`: both short-circuit to `undefined` instead of
throwing. -/
def optChain (v : Option JValue) (key : String) : Option JValue :=
  match v with
  | none => none
  | some w => if isNullValue w then none else jsProp w key

/-- JavaScript truthiness of a defined value (the source's `!latest` test):
`null`, `false`, `0` and the empty string are falsy. -/
def truthyVal : JValue → Bool
  | JValue.null => false
  | JValue.bool b => b
  | JValue.num n => n != 0
  | JValue.str s => s != ""
  | JValue.arr _ => true
  | JValue.obj _ => true

/-- JavaScript string coercion of a value used as a computed property key
(the source's `versions[latest]`).  Array coercion is approximated; only
string keys occur in registry documents. -/
def jsKeyString : JValue → String
  | JValue.str s => s
  | JValue.num n => toString n
  | JValue.bool b => if b then "true" else "false"
  | JValue.null => "null"
  | JValue.arr _ => ""
  | JValue.obj _ => "[object Object]"

/-- Mirror of the source interface `PackageSizeInfo`: package `name`,
human-readable `size`, and the raw byte count `rawSize` (a JavaScript
number, hence a signed integer here). -/
structure PackageSizeInfo where
  name : String
  size : String
  rawSize : Int
  deriving DecidableEq

/-- Unit labels of `formatBytes` (the source's `sizes` array). -/
def sizes : List String := ["Bytes", "KB", "MB", "GB", "TB"]

/-- Two-digit zero padding for the fractional part of a fixed-point
rendering. -/
def pad2 (n : Nat) : String :=
  if n < 10 then "0" ++ Nat.repr n else Nat.repr n

/-- Renders the ratio `num / den` (for `den > 0`) rounded to exactly two
decimal places, half away from zero: the exact-arithmetic reading of
JavaScript's `x.toFixed(2)` for the non-negative ratios that occur here. -/
def toFixed2 (num den : Nat) : String :=
  let scaled := (200 * num + den) / (2 * den)
  Nat.repr (scaled / 100) ++ "." ++ pad2 (scaled % 100)

/-- Mirror of the source's `formatBytes`.  For a positive integer input the
selected index `Math.floor(Math.log bytes / Math.log 1024)` is
`Nat.log 1024 bytes` under the exact-arithmetic reading, and `toFixed(2)` is
exact rounding to two decimals.  A negative input turns every float
expression into `NaN` in the source, which renders as `"NaN undefined"`; an
input at or beyond `1024 ^ 5` makes the source read past the end of the
label array, which renders as `"undefined"`. -/
def formatBytes (bytes : Int) : String :=
  if bytes = 0 then "0 Byte"
  else if bytes < 0 then "NaN undefined"
  else
    toFixed2 bytes.toNat (1024 ^ Nat.log 1024 bytes.toNat) ++ " " ++
      sizes.getD (Nat.log 1024 bytes.toNat) "undefined"

/-- Result of one settled registry fetch: `Except.error` is a rejected
promise (network failure, HTTP error such as a 404, JSON parse failure)
carrying its message; `Except.ok` is the parsed JSON body. -/
abbrev FetchOutcome := Except String JValue

/-- Body of the source's `getPackageSize` `try` block over an already parsed
response document.  `Except.error` marks a thrown `TypeError` — a property
read on `undefined` or `null` — which the source's `catch` turns into
`null`. -/
def getPackageSizeBody (packageName : String) (packageInfo : JValue) :
    Except Unit (Option PackageSizeInfo) :=
  if isNullValue packageInfo then Except.error () else
  match optChain (jsProp packageInfo "dist-tags") "latest" with
  | none => Except.ok none
  | some latestVal =>
    if truthyVal latestVal then
      match jsProp packageInfo "versions" with
      | none => Except.error ()
      | some versionsVal =>
        if isNullValue versionsVal then Except.error ()
        else
          match optChain (optChain (jsProp versionsVal (jsKeyString latestVal))
              "dist") "unpackedSize" with
          | some (JValue.num n) =>
            Except.ok (some { name := packageName, size := formatBytes n, rawSize := n })
          | _ => Except.ok none
    else Except.ok none

/-- Mirror of the source's `getPackageSize`: a rejected fetch or a thrown
`TypeError` is absorbed by the `catch`, which logs a diagnostic and returns
`null` (`none`); nothing propagates past this boundary. -/
def getPackageSize (packageName : String) (fetched : FetchOutcome) :
    Option PackageSizeInfo :=
  match fetched with
  | Except.error _ => none
  | Except.ok info =>
    match getPackageSizeBody packageName info with
    | Except.error _ => none
    | Except.ok r => r

/-- The `dist-tags.latest` value of a response document, as read by the
source's `packageInfo['dist-tags']?.latest` (reads on a `null` document,
which throw in the source, count as absent). -/
def latestOf (info : JValue) : Option JValue :=
  if isNullValue info then none
  else optChain (jsProp info "dist-tags") "latest"

/-- The version entry `packageInfo.versions[latest]` referenced by a truthy
`latest` tag: absent when the tag is missing or falsy, when `versions` is
missing or `null` (a throwing read in the source), or when the entry itself
is missing. -/
def versionEntryOf (info : JValue) : Option JValue :=
  if isNullValue info then none
  else
    match optChain (jsProp info "dist-tags") "latest" with
    | none => none
    | some latestVal =>
      if truthyVal latestVal then
        optChain (jsProp info "versions") (jsKeyString latestVal)
      else none

/-- The `dist.unpackedSize` value of the referenced version entry. -/
def unpackedOf (info : JValue) : Option JValue :=
  optChain (optChain (versionEntryOf info) "dist") "unpackedSize"

/-- Mirror of the source's `listOrgPackages`, with the `console.error`
diagnostics made explicit as a second component.  A non-object body reaches
`throw new Error('Unexpected response format')`, which the function's own
`catch` converts into an empty list plus one logged diagnostic; a rejected
fetch lands in the same `catch`. -/
def listOrgPackages (org : String) (fetched : FetchOutcome) :
    List String × List String :=
  match fetched with
  | Except.error e =>
    ([], ["Failed to list packages for org " ++ org ++ ": " ++ e])
  | Except.ok (JValue.obj fields) => (fields.map Prod.fst, [])
  | Except.ok _ =>
    ([], ["Failed to list packages for org " ++ org ++ ": Unexpected response format"])

/-- The source's guard `response && typeof response === 'object' &&
!Array.isArray(response)`: exactly the JSON objects pass it. -/
def isJsonObject : JValue → Bool
  | JValue.obj _ => true
  | _ => false

/-- Whitespace characters for the purposes of JavaScript's `trim`. -/
def isTrimmable (c : Char) : Bool :=
  c = ' ' || c = '\t' || c = '\n' || c = '\r'

/-- Both-ends whitespace trim (JavaScript `.trim()`). -/
def trimChars (cs : List Char) : List Char :=
  ((cs.dropWhile isTrimmable).reverse.dropWhile isTrimmable).reverse

/-- Characters that the capture group `(.*)` cannot cross: in a JavaScript
regex the dot stops at line terminators. -/
def isLineEnd (c : Char) : Bool := c = '\n' || c = '\r'

/-- Suffix of the text after the first occurrence of `marker`, scanning left
to right exactly as a regex engine searches for a literal. -/
def findMarkerSuffix (marker : List Char) : List Char → Option (List Char)
  | [] => if marker.isEmpty then some [] else none
  | c :: cs =>
    if marker.isPrefixOf (c :: cs) then some ((c :: cs).drop marker.length)
    else findMarkerSuffix marker cs

/-- The literal part of the source's token regex
`/\/\/registry\.npmjs\.org\/:_authToken=(.*)/`. -/
def authTokenMarker : List Char := "//registry.npmjs.org/:_authToken=".toList

/-- Mirror of the source's `getNpmToken`.  `npmrc` is the file content, or
`none` when `readFileSync` throws (missing or unreadable file), which the
`catch` converts to `null`; a content without a regex match is also `null`;
otherwise the result is the first match's capture — the rest of that line —
trimmed. -/
def getNpmToken (npmrc : Option String) : Option String :=
  match npmrc with
  | none => none
  | some content =>
    match findMarkerSuffix authTokenMarker content.toList with
    | none => none
    | some rest =>
      some (String.mk (trimChars (rest.takeWhile (fun c => !isLineEnd c))))

/-- Exit status of the program's startup guards as a function of the CLI
argument `process.argv[2]` and the `.npmrc` content.  Both guards run at
module load, before any network request is issued; past them, the top-level
`catch` in `main` absorbs every error, so the process exits 0. -/
def programExitCode (argv2 : Option String) (npmrc : Option String) : Nat :=
  match argv2 with
  | none => 1
  | some org =>
    if org = "" then 1
    else
      match getNpmToken npmrc with
      | none => 1
      | some token => if token = "" then 1 else 0

/-- One settled promise of the batch
`packages.map(pkg => getPackageSize(pkg).finally(() => bar.increment()))`:
its value, paired with the single progress tick its `finally` callback
fires whatever the outcome was. -/
def fetchTask (resp : String → FetchOutcome) (pkg : String) :
    Option PackageSizeInfo × Nat :=
  (getPackageSize pkg (resp pkg), 1)

/-- The awaited `Promise.all` of the batch: per-package results in submission
order (the `Promise.all` contract), and the total number of progress-bar
increments accumulated by the `finally` callbacks. -/
def runBatch (packages : List String) (resp : String → FetchOutcome) :
    List (Option PackageSizeInfo) × Nat :=
  let settled := packages.map (fetchTask resp)
  (settled.map Prod.fst, (settled.map Prod.snd).foldl (fun a b => a + b) 0)

/-- The source's `filter(sizeInfo => sizeInfo !== null)`: keep the resolved
records, in order. -/
def keptPackages (results : List (Option PackageSizeInfo)) :
    List PackageSizeInfo :=
  results.filterMap id

/-- Stable descending insertion, modelling one placement step of
`Array.prototype.sort` under the comparator `(a, b) => b.rawSize - a.rawSize`:
an element goes in front of the first entry that does not strictly exceed
it, so it stays behind earlier elements of equal key. -/
def insertBySize (x : PackageSizeInfo) :
    List PackageSizeInfo → List PackageSizeInfo
  | [] => [x]
  | y :: ys =>
    if y.rawSize ≤ x.rawSize then x :: y :: ys else y :: insertBySize x ys

/-- Models the source's `packageSizes.sort((a, b) => b.rawSize - a.rawSize)`:
ECMAScript `Array.prototype.sort` is stable, and with this comparator the
unique stable result is the descending-by-`rawSize` stable insertion
order. -/
def sortBySize (l : List PackageSizeInfo) : List PackageSizeInfo :=
  match l with
  | [] => []
  | x :: xs => insertBySize x (sortBySize xs)

/-- The kept, sorted aggregate that `main` prints as a table and writes as
CSV. -/
def finalOutput (packages : List String) (resp : String → FetchOutcome) :
    List PackageSizeInfo :=
  sortBySize (keptPackages (runBatch packages resp).1)

/-- The fixed CSV header line, including its terminating newline. -/
def csvHeader : String := "Package Name,Size (Bytes),Size (Pretty)\n"

/-- One CSV row: the three fields comma-joined with no quoting or
escaping. -/
def csvRow (pkg : PackageSizeInfo) : String :=
  pkg.name ++ "," ++ toString pkg.rawSize ++ "," ++ pkg.size

/-- Mirror of the source's `writeCSV`: the full file content handed to
`fs.writeFileSync` — the header, then the row strings joined by newlines,
with no trailing newline. -/
def writeCSV (data : List PackageSizeInfo) : String :=
  csvHeader ++ String.intercalate "\n" (data.map csvRow)

/-- Splits a character list at every occurrence of the separator, the way a
plain CSV reader recovers the cells of an unquoted row. -/
def splitFields (sep : Char) : List Char → List (List Char)
  | [] => [[]]
  | c :: cs =>
    if c = sep then [] :: splitFields sep cs
    else
      match splitFields sep cs with
      | [] => [[c]]
      | f :: fs => (c :: f) :: fs

/-- Test fixture: a well-formed registry document whose latest version has
`unpackedSize: 2048`. -/
def docLatest2048 : JValue :=
  JValue.obj [("dist-tags", JValue.obj [("latest", JValue.str "1.0.0")]),
    ("versions", JValue.obj [("1.0.0", JValue.obj [("dist",
      JValue.obj [("unpackedSize", JValue.num 2048)])])])]

/-- Test fixture: a well-formed registry document whose latest version has
`unpackedSize: 4096`. -/
def docLatest4096 : JValue :=
  JValue.obj [("dist-tags", JValue.obj [("latest", JValue.str "2.0.0")]),
    ("versions", JValue.obj [("2.0.0", JValue.obj [("dist",
      JValue.obj [("unpackedSize", JValue.num 4096)])])])]

/-- Test fixture: a registry document carrying the negative size
`unpackedSize: -1`. -/
def docNegativeSize : JValue :=
  JValue.obj [("dist-tags", JValue.obj [("latest", JValue.str "1.0.0")]),
    ("versions", JValue.obj [("1.0.0", JValue.obj [("dist",
      JValue.obj [("unpackedSize", JValue.num (-1))])])])]

end NpmCheck

namespace NpmCheck

theorem mem_insertBySize {z x : PackageSizeInfo} :
    ∀ {l : List PackageSizeInfo}, z ∈ insertBySize x l ↔ z = x ∨ z ∈ l
  | [] => by simp [insertBySize]
  | y :: ys => by
    by_cases h : y.rawSize ≤ x.rawSize
    · simp [insertBySize, h]
    · simp only [insertBySize, if_neg h, List.mem_cons, mem_insertBySize (l := ys)]
      tauto

theorem pairwise_insertBySize {x : PackageSizeInfo} :
    ∀ {l : List PackageSizeInfo},
      l.Pairwise (fun a b => b.rawSize ≤ a.rawSize) →
        (insertBySize x l).Pairwise (fun a b => b.rawSize ≤ a.rawSize)
  | [], _ => by simp [insertBySize]
  | y :: ys, h => by
    rcases List.pairwise_cons.mp h with ⟨hy, hys⟩
    by_cases hc : y.rawSize ≤ x.rawSize
    · simp only [insertBySize, if_pos hc]
      refine List.pairwise_cons.mpr ⟨?_, h⟩
      intro z hz
      rcases List.mem_cons.mp hz with rfl | hz
      · exact hc
      · exact le_trans (hy z hz) hc
    · simp only [insertBySize, if_neg hc]
      refine List.pairwise_cons.mpr ⟨?_, pairwise_insertBySize hys⟩
      intro z hz
      rcases mem_insertBySize.mp hz with rfl | hz
      · exact le_of_not_le hc
      · exact hy z hz

theorem sortBySize_pairwise :
    ∀ l : List PackageSizeInfo,
      (sortBySize l).Pairwise (fun a b => b.rawSize ≤ a.rawSize)
  | [] => by simp [sortBySize]
  | x :: xs => pairwise_insertBySize (sortBySize_pairwise xs)

theorem mem_sortBySize {z : PackageSizeInfo} :
    ∀ {l : List PackageSizeInfo}, z ∈ sortBySize l ↔ z ∈ l
  | [] => Iff.rfl
  | x :: xs => by
    simp only [sortBySize, mem_insertBySize, mem_sortBySize (l := xs),
      List.mem_cons]

theorem filter_insertBySize (v : Int) (x : PackageSizeInfo) :
    ∀ l : List PackageSizeInfo,
      (insertBySize x l).filter (fun rec => rec.rawSize == v) =
        (x :: l).filter (fun rec => rec.rawSize == v)
  | [] => rfl
  | y :: ys => by
    by_cases hc : y.rawSize ≤ x.rawSize
    · rw [insertBySize, if_pos hc]
    · have hyx : x.rawSize < y.rawSize := lt_of_not_le hc
      rw [insertBySize, if_neg hc]
      simp only [List.filter_cons, filter_insertBySize v x ys]
      by_cases hx : x.rawSize = v
      · have hy : ¬(y.rawSize = v) := by omega
        simp [beq_iff_eq, hx, hy]
      · by_cases hy : y.rawSize = v <;> simp [beq_iff_eq, hx, hy]

theorem sortBySize_filter (v : Int) :
    ∀ l : List PackageSizeInfo,
      (sortBySize l).filter (fun rec => rec.rawSize == v) =
        l.filter (fun rec => rec.rawSize == v)
  | [] => rfl
  | x :: xs => by
    rw [sortBySize, filter_insertBySize]
    by_cases hx : x.rawSize = v
    · simp [List.filter, hx, sortBySize_filter v xs]
    · simp [List.filter, hx, sortBySize_filter v xs]

end NpmCheck

namespace NpmCheck

theorem runBatch_fst (packages : List String) (resp : String → FetchOutcome) :
    (runBatch packages resp).1 =
      packages.map (fun pkg => getPackageSize pkg (resp pkg)) := by
  simp [runBatch, fetchTask, List.map_map, Function.comp]

theorem foldl_add_map_one (l : List String) :
    ∀ acc : Nat, (l.map (fun _ => 1)).foldl (fun a b => a + b) acc = acc + l.length := by
  induction l with
  | nil => intro acc; simp
  | cons x xs ih =>
    intro acc
    simp only [List.map_cons, List.foldl_cons, ih, List.length_cons]
    omega

theorem runBatch_snd (packages : List String) (resp : String → FetchOutcome) :
    (runBatch packages resp).2 = packages.length := by
  have h : (packages.map (fetchTask resp)).map Prod.snd =
      packages.map (fun _ => 1) := by
    rw [List.map_map]; rfl
  simp only [runBatch, h, foldl_add_map_one, Nat.zero_add]

theorem keptPackages_runBatch (packages : List String)
    (resp : String → FetchOutcome) :
    keptPackages (runBatch packages resp).1 =
      packages.filterMap (fun pkg => getPackageSize pkg (resp pkg)) := by
  rw [keptPackages, runBatch_fst, List.filterMap_map]
  simp [Function.comp]

end NpmCheck

namespace NpmCheck

theorem getPackageSize_some_anatomy (packageName : String) (info : JValue)
    (rec : PackageSizeInfo)
    (h : getPackageSize packageName (Except.ok info) = some rec) :
    latestOf info ≠ none ∧ versionEntryOf info ≠ none ∧
      unpackedOf info = some (JValue.num rec.rawSize) ∧
      rec.name = packageName ∧ rec.size = formatBytes rec.rawSize := by
  have hbody : getPackageSizeBody packageName info = Except.ok (some rec) := by
    simp only [getPackageSize] at h
    cases hb : getPackageSizeBody packageName info with
    | error e => rw [hb] at h; cases h
    | ok r => rw [hb] at h; dsimp only at h; rw [h]
  unfold getPackageSizeBody at hbody
  by_cases hnull : isNullValue info
  · rw [if_pos hnull] at hbody; cases hbody
  · rw [if_neg hnull] at hbody
    split at hbody
    · simp at hbody
    · rename_i latestVal hlatest
      split at hbody
      · rename_i htr
        split at hbody
        · cases hbody
        · rename_i versionsVal hvers
          split at hbody
          · cases hbody
          · rename_i hvn
            split at hbody
            · rename_i n hsize
              simp only [Except.ok.injEq, Option.some.injEq] at hbody
              subst hbody
              have hventry : versionEntryOf info =
                  jsProp versionsVal (jsKeyString latestVal) := by
                simp only [versionEntryOf, hnull, hlatest, htr, hvers,
                  ite_true, ite_false]
                simp [optChain, hvn]
              refine ⟨?_, ?_, ?_, rfl, rfl⟩
              · simp [latestOf, hnull, hlatest]
              · rw [hventry]
                intro hn
                rw [hn] at hsize
                simp [optChain] at hsize
              · simp [unpackedOf, hventry, hsize]
            · simp at hbody
      · simp at hbody

end NpmCheck

namespace NpmCheck

theorem splitFields_append (sep : Char) :
    ∀ (a rest : List Char), sep ∉ a →
      splitFields sep (a ++ sep :: rest) = a :: splitFields sep rest
  | [], rest, _ => by simp [splitFields]
  | c :: cs, rest, h => by
    have hc : ¬(c = sep) := fun hh => h (hh ▸ List.mem_cons_self c cs)
    have hcs : sep ∉ cs := fun hh => h (List.mem_cons_of_mem c hh)
    simp only [List.cons_append, splitFields, if_neg hc, List.append_eq,
      splitFields_append sep cs rest hcs]

theorem toDigitsCore_chars :
    ∀ (fuel n : Nat) (acc : List Char) (c : Char),
      c ∈ Nat.toDigitsCore 10 fuel n acc →
        c ∈ acc ∨ ∃ d, d < 10 ∧ c = Nat.digitChar d
  | 0, n, acc, c, h => Or.inl h
  | fuel+1, n, acc, c, h => by
    simp only [Nat.toDigitsCore] at h
    split at h
    · rcases List.mem_cons.mp h with rfl | h'
      · exact Or.inr ⟨n % 10, Nat.mod_lt _ (by norm_num), rfl⟩
      · exact Or.inl h'
    · rcases toDigitsCore_chars fuel (n / 10) (Nat.digitChar (n % 10) :: acc) c h
        with h' | h'
      · rcases List.mem_cons.mp h' with rfl | h''
        · exact Or.inr ⟨n % 10, Nat.mod_lt _ (by norm_num), rfl⟩
        · exact Or.inl h''
      · exact Or.inr h'

theorem comma_not_mem_natRepr (n : Nat) : ',' ∉ (Nat.repr n).data := by
  intro h
  have h' : ',' ∈ Nat.toDigitsCore 10 (n + 1) n [] := h
  rcases toDigitsCore_chars (n + 1) n [] ',' h' with h'' | ⟨d, hd, hc⟩
  · cases h''
  · have hall : ∀ d, d < 10 → Nat.digitChar d ≠ ',' := by decide
    exact hall d hd hc.symm

theorem comma_not_mem_intRepr (n : Int) : ',' ∉ (toString n).data := by
  cases n with
  | ofNat m =>
    have hh : toString (Int.ofNat m) = Nat.repr m := rfl
    rw [hh]
    exact comma_not_mem_natRepr m
  | negSucc m =>
    have hh : toString (Int.negSucc m) = "-" ++ Nat.repr (m + 1) := rfl
    rw [hh]
    intro h
    rw [String.data_append] at h
    rcases List.mem_append.mp h with h | h
    · have hd : String.data "-" = ['-'] := rfl
      rw [hd] at h
      simp at h
    · exact comma_not_mem_natRepr (m + 1) h

theorem csvRow_cell_one (pkg : PackageSizeInfo) (hname : ',' ∉ pkg.name.data) :
    (splitFields ',' (csvRow pkg).data).get? 1 =
      some (toString pkg.rawSize).data := by
  have hcomma : String.data "," = [','] := rfl
  have hdata : (csvRow pkg).data =
      pkg.name.data ++ ',' ::
        ((toString pkg.rawSize).data ++ ',' :: pkg.size.data) := by
    simp [csvRow, String.data_append, hcomma]
  rw [hdata, splitFields_append ',' _ _ hname,
    splitFields_append ',' _ _ (comma_not_mem_intRepr pkg.rawSize)]
  rfl

theorem natLog_eq_floor_logb (b : Nat) :
    ((Nat.log 1024 b : Int)) = ⌊Real.logb 1024 (b : ℝ)⌋ := by
  have h1024 : (((1024 : Nat)) : ℝ) = (1024 : ℝ) := by norm_num
  rw [← h1024, Real.floor_logb_natCast (by positivity), Int.log_natCast]

theorem natDiv_cast_floor (a c : Nat) :
    ((a / c : Nat) : Int) = ⌊((a : ℚ)) / (c : ℚ)⌋ := by
  have h1 : ⌊((a : ℚ)) / (c : ℚ)⌋₊ = a / c := by
    rw [Nat.floor_div_nat, Nat.floor_natCast]
  have h2 : (0 : Int) ≤ ⌊((a : ℚ)) / (c : ℚ)⌋ :=
    Int.le_floor.mpr (by positivity)
  rw [← h1, ← Int.floor_toNat, Int.toNat_of_nonneg h2]

theorem toFixed2_round (b p : Nat) (hp : 0 < p) :
    ((((200 * b + p) / (2 * p) : Nat)) : Int) =
      round (((b : ℚ) / (p : ℚ)) * 100) := by
  rw [round_eq]
  have hpq : ((p : ℚ)) ≠ 0 := Nat.cast_ne_zero.mpr hp.ne'
  have h1 : ((b : ℚ) / (p : ℚ)) * 100 + 1 / 2 =
      (((200 * b + p : Nat)) : ℚ) / (((2 * p : Nat)) : ℚ) := by
    push_cast
    field_simp
    ring
  rw [h1, ← natDiv_cast_floor]

theorem formatBytes_pos (b : Nat) (hb : 1 ≤ b) :
    formatBytes (b : Int) =
      toFixed2 b (1024 ^ Nat.log 1024 b) ++ " " ++
        sizes.getD (Nat.log 1024 b) "undefined" := by
  have h0 : ((b : Int)) ≠ 0 := by exact_mod_cast Nat.one_le_iff_ne_zero.mp hb
  have h1 : ¬((b : Int) < 0) := not_lt.mpr (by positivity)
  simp only [formatBytes]
  rw [if_neg h0, if_neg h1, Int.toNat_natCast]

theorem sizes_getD_mem (i : Nat) (hi : i < 5) :
    sizes.getD i "undefined" ∈ sizes := by
  interval_cases i <;> decide

end NpmCheck

namespace NpmCheck

/-- Claim C1: for every list of fetch results, the kept output list — the
non-absent records left by the filter — is, after the sort step, in
descending order of `rawSize`: every adjacent pair (a, b) satisfies
`a.rawSize ≥ b.rawSize`. -/
theorem C1_output_sorted_descending (results : List (Option PackageSizeInfo)) :
    List.Chain' (fun a b => b.rawSize ≤ a.rawSize)
      (sortBySize (keptPackages results)) :=
  (sortBySize_pairwise (keptPackages results)).chain'

/-- Claim C2 counterexample: at `b = 1024 ^ 5` the claim's index formula
selects index 5, one past the end of the five-element label list, and the
source renders the out-of-range array read as `"undefined"` — not a unit
label from the list — so the claim quantified over every `b ≥ 1` fails. -/
theorem C2_counterexample :
    formatBytes ((1024 : Int) ^ 5) = "1.00 undefined" ∧
      "undefined" ∉ sizes := by
  constructor
  · have h1 : ((1024 : Int) ^ 5) = ((1024 ^ 5 : Nat) : Int) := by norm_num
    rw [h1, formatBytes_pos (1024 ^ 5) (by norm_num),
      Nat.log_pow (by norm_num) 5]
    decide
  · decide

/-- Claim C2 (amended): for `1 ≤ b < 1024 ^ 5`, `formatBytes` selects the
unit index `i = ⌊log b / log 1024⌋` (which equals `Nat.log 1024 b`), renders
`b / 1024 ^ i` rounded to exactly two decimal places, and appends the unit
label at index `i` of the list {Bytes, KB, MB, GB, TB}; also
`formatBytes 0 = "0 Byte"`.  The only amendment is the upper bound
`b < 1024 ^ 5`, forced by the counterexample. -/
theorem C2_formatBytes_spec (b : Nat) (hb : 1 ≤ b) (hub : b < 1024 ^ 5) :
    formatBytes (b : Int) =
        toFixed2 b (1024 ^ Nat.log 1024 b) ++ " " ++
          sizes.getD (Nat.log 1024 b) "undefined" ∧
      ((Nat.log 1024 b : Int)) = ⌊Real.logb 1024 (b : ℝ)⌋ ∧
      Nat.log 1024 b < 5 ∧
      sizes.getD (Nat.log 1024 b) "undefined" ∈ sizes ∧
      (∃ scaled : Nat,
        ((scaled : Int)) =
            round (((b : ℚ) / ((1024 ^ Nat.log 1024 b : Nat) : ℚ)) * 100) ∧
          toFixed2 b (1024 ^ Nat.log 1024 b) =
            Nat.repr (scaled / 100) ++ "." ++ pad2 (scaled % 100)) ∧
      formatBytes 0 = "0 Byte" := by
  have hlt : Nat.log 1024 b < 5 :=
    Nat.log_lt_of_lt_pow (Nat.one_le_iff_ne_zero.mp hb) hub
  refine ⟨formatBytes_pos b hb, natLog_eq_floor_logb b, hlt,
    sizes_getD_mem _ hlt,
    ⟨(200 * b + 1024 ^ Nat.log 1024 b) / (2 * 1024 ^ Nat.log 1024 b), ?_, rfl⟩,
    rfl⟩
  exact toFixed2_round b (1024 ^ Nat.log 1024 b) (by positivity)

/-- Claim C2 witness: the amended statement instantiated at 2048 bytes. -/
theorem C2_witness :
    1 ≤ 2048 ∧ 2048 < 1024 ^ 5 ∧
      (formatBytes ((2048 : Nat) : Int) =
          toFixed2 2048 (1024 ^ Nat.log 1024 2048) ++ " " ++
            sizes.getD (Nat.log 1024 2048) "undefined" ∧
        ((Nat.log 1024 2048 : Int)) = ⌊Real.logb 1024 ((2048 : Nat) : ℝ)⌋ ∧
        Nat.log 1024 2048 < 5 ∧
        sizes.getD (Nat.log 1024 2048) "undefined" ∈ sizes ∧
        (∃ scaled : Nat,
          ((scaled : Int)) =
              round ((((2048 : Nat) : ℚ) /
                ((1024 ^ Nat.log 1024 2048 : Nat) : ℚ)) * 100) ∧
            toFixed2 2048 (1024 ^ Nat.log 1024 2048) =
              Nat.repr (scaled / 100) ++ "." ++ pad2 (scaled % 100)) ∧
        formatBytes 0 = "0 Byte") :=
  ⟨by norm_num, by norm_num,
    C2_formatBytes_spec 2048 (by norm_num) (by norm_num)⟩

/-- Claim C3: a parsed package-metadata response lacking a truthy
`dist-tags.latest` entry, or lacking the version entry that tag references,
or holding a non-numeric `unpackedSize` for that version, makes
`getPackageSize` return the absent value rather than raising an error — the
embedding is total, with internal throws absorbed into `none` exactly as the
source's `catch` does. -/
theorem C3_absent_on_malformed (packageName : String) (info : JValue)
    (h : latestOf info = none ∨ versionEntryOf info = none ∨
      ∀ n : Int, unpackedOf info ≠ some (JValue.num n)) :
    getPackageSize packageName (Except.ok info) = none := by
  by_contra hne
  rcases Option.ne_none_iff_exists'.mp hne with ⟨rec, hrec⟩
  obtain ⟨hlat, hv, hup, -, -⟩ :=
    getPackageSize_some_anatomy packageName info rec hrec
  rcases h with h | h | h
  · exact hlat h
  · exact hv h
  · exact h rec.rawSize hup

/-- Claim C3 witness: a response with an empty object body lacks
`dist-tags.latest`, and the fetch indeed resolves to the absent value. -/
theorem C3_witness :
    (latestOf (JValue.obj []) = none ∨
        versionEntryOf (JValue.obj []) = none ∨
        ∀ n : Int, unpackedOf (JValue.obj []) ≠ some (JValue.num n)) ∧
      getPackageSize "left-pad" (Except.ok (JValue.obj [])) = none :=
  ⟨Or.inl rfl, C3_absent_on_malformed "left-pad" (JValue.obj []) (Or.inl rfl)⟩

/-- Claim C4: an organization-listing response body that is not a JSON
object — a scalar, `null`, or an array — yields the empty collection plus
one logged diagnostic; the embedding is total, so nothing propagates past
the function's boundary. -/
theorem C4_empty_on_bad_listing (org : String) (v : JValue)
    (h : isJsonObject v = false) :
    listOrgPackages org (Except.ok v) =
      ([], ["Failed to list packages for org " ++ org ++
        ": Unexpected response format"]) := by
  cases v <;> simp_all [listOrgPackages, isJsonObject]

/-- Claim C4 witness: an array-shaped listing response produces the empty
collection and the diagnostic. -/
theorem C4_witness :
    isJsonObject (JValue.arr []) = false ∧
      listOrgPackages "acme" (Except.ok (JValue.arr [])) =
        ([], ["Failed to list packages for org " ++ "acme" ++
          ": Unexpected response format"]) :=
  ⟨rfl, C4_empty_on_bad_listing "acme" (JValue.arr []) rfl⟩

/-- Claim C5: for every batch of N submitted packages the progress indicator
is incremented exactly N times — one `finally` tick per settled fetch,
whether it produced a record or the absent value. -/
theorem C5_progress_increments (packages : List String)
    (resp : String → FetchOutcome) :
    (runBatch packages resp).2 = packages.length :=
  runBatch_snd packages resp

/-- Claim C6 counterexample: a package name containing a comma shifts the
cells of its unquoted CSV row — the second comma-separated cell becomes "b"
instead of the decimal 5 — so the byte-field property quantified over every
kept-package list fails. -/
theorem C6_counterexample :
    (splitFields ','
        (csvRow { name := "a,b", size := "5.00 Bytes", rawSize := 5 }).data).get? 1 =
        some "b".data ∧
      "b".data ≠ (toString (5 : Int)).data := by
  constructor
  · decide
  · decide

/-- Claim C6 (amended): the CSV output is the fixed header line
`Package Name,Size (Bytes),Size (Pretty)` followed by exactly one row per
kept package in the given (sorted) order — so row count is kept count plus
the header — and, provided package names contain no comma (the unquoted
format corrupts otherwise, as the counterexample shows), the second cell of
each row is exactly the decimal rendering of that package's `rawSize`; with
zero kept packages the output is the header alone. -/
theorem C6_csv_shape (data : List PackageSizeInfo)
    (hnames : ∀ pkg ∈ data, ',' ∉ pkg.name.data) :
    writeCSV data = csvHeader ++ String.intercalate "\n" (data.map csvRow) ∧
      (data.map csvRow).length = data.length ∧
      (∀ pkg ∈ data,
        (splitFields ',' (csvRow pkg).data).get? 1 =
          some (toString pkg.rawSize).data) ∧
      writeCSV [] = csvHeader := by
  refine ⟨rfl, List.length_map data csvRow, ?_, by decide⟩
  intro pkg hmem
  exact csvRow_cell_one pkg (hnames pkg hmem)

/-- Claim C6 witness: the amended statement instantiated at a one-package
list with a comma-free name. -/
theorem C6_witness :
    (∀ pkg ∈ [({ name := "alpha", size := "2.00 KB", rawSize := 2048 } :
        PackageSizeInfo)], ',' ∉ pkg.name.data) ∧
      (writeCSV [({ name := "alpha", size := "2.00 KB", rawSize := 2048 } :
            PackageSizeInfo)] =
          csvHeader ++ String.intercalate "\n"
            ([({ name := "alpha", size := "2.00 KB", rawSize := 2048 } :
              PackageSizeInfo)].map csvRow) ∧
        ([({ name := "alpha", size := "2.00 KB", rawSize := 2048 } :
            PackageSizeInfo)].map csvRow).length =
          [({ name := "alpha", size := "2.00 KB", rawSize := 2048 } :
            PackageSizeInfo)].length ∧
        (∀ pkg ∈ [({ name := "alpha", size := "2.00 KB", rawSize := 2048 } :
            PackageSizeInfo)],
          (splitFields ',' (csvRow pkg).data).get? 1 =
            some (toString pkg.rawSize).data) ∧
        writeCSV [] = csvHeader) :=
  ⟨by decide,
    C6_csv_shape [{ name := "alpha", size := "2.00 KB", rawSize := 2048 }]
      (by decide)⟩

/-- Claim C7: every record of the final output satisfies
`size = formatBytes rawSize` — `getPackageSize` constructs records that way,
and filtering and sorting only select and rearrange records, never mutate
them, so the invariant reaches the report intact. -/
theorem C7_size_formatBytes (packages : List String)
    (resp : String → FetchOutcome) (rec : PackageSizeInfo)
    (hmem : rec ∈ finalOutput packages resp) :
    rec.size = formatBytes rec.rawSize := by
  rw [finalOutput] at hmem
  have h1 : rec ∈ keptPackages (runBatch packages resp).1 :=
    mem_sortBySize.mp hmem
  rw [keptPackages_runBatch] at h1
  rcases List.mem_filterMap.mp h1 with ⟨pkg, hpkg, hsome⟩
  cases hresp : resp pkg with
  | error e => rw [hresp] at hsome; simp [getPackageSize] at hsome
  | ok info =>
    rw [hresp] at hsome
    exact (getPackageSize_some_anatomy pkg info rec hsome).2.2.2.2

/-- Claim C7 witness: a one-package batch whose response carries
`unpackedSize: 2048`; its output record is in the final output and satisfies
the invariant. -/
theorem C7_witness :
    (({ name := "a", size := formatBytes 2048, rawSize := 2048 } :
        PackageSizeInfo) ∈
        finalOutput ["a"] (fun _ => Except.ok docLatest2048)) ∧
      ({ name := "a", size := formatBytes 2048, rawSize := 2048 } :
          PackageSizeInfo).size =
        formatBytes ({ name := "a", size := formatBytes 2048, rawSize := 2048 } :
          PackageSizeInfo).rawSize := by
  have hfo : finalOutput ["a"] (fun _ => Except.ok docLatest2048) =
      [{ name := "a", size := formatBytes 2048, rawSize := 2048 }] := rfl
  have hmem : ({ name := "a", size := formatBytes 2048, rawSize := 2048 } :
      PackageSizeInfo) ∈ finalOutput ["a"] (fun _ => Except.ok docLatest2048) := by
    rw [hfo]
    exact List.mem_singleton.mpr rfl
  exact ⟨hmem, C7_size_formatBytes _ _ _ hmem⟩

/-- Claim C8 counterexample: the source validates only
`typeof size === 'number'`, so a response carrying `unpackedSize: -1`
produces a record whose `rawSize` is the negative integer -1 — the
non-negativity claimed for every constructed record fails. -/
theorem C8_counterexample :
    (getPackageSize "pkg" (Except.ok docNegativeSize)).map
        PackageSizeInfo.rawSize = some (-1) ∧
      ¬((0 : Int) ≤ -1) :=
  ⟨rfl, by decide⟩

/-- Claim C8 (amended): whenever `getPackageSize` returns a record, its
`rawSize` is exactly the integer stored in the response's `unpackedSize`
field, and it is non-negative whenever that stored value is non-negative;
the source applies no sign check of its own, so the unconditional
non-negativity fails (see the counterexample). -/
theorem C8_rawSize_integer (packageName : String) (info : JValue)
    (rec : PackageSizeInfo)
    (h : getPackageSize packageName (Except.ok info) = some rec) :
    unpackedOf info = some (JValue.num rec.rawSize) ∧
      (∀ n : Int, unpackedOf info = some (JValue.num n) → 0 ≤ n →
        0 ≤ rec.rawSize) := by
  obtain ⟨-, -, hup, -, -⟩ := getPackageSize_some_anatomy packageName info rec h
  refine ⟨hup, ?_⟩
  intro n hn hnn
  rw [hup] at hn
  have heq : rec.rawSize = n := by simpa using hn
  rw [heq]
  exact hnn

/-- Claim C8 witness: the amended statement instantiated at a well-formed
response with `unpackedSize: 4096`. -/
theorem C8_witness :
    getPackageSize "b" (Except.ok docLatest4096) =
        some { name := "b", size := formatBytes 4096, rawSize := 4096 } ∧
      (unpackedOf docLatest4096 =
          some (JValue.num ({ name := "b", size := formatBytes 4096, rawSize := 4096 } : PackageSizeInfo).rawSize) ∧
        (∀ n : Int, unpackedOf docLatest4096 = some (JValue.num n) → 0 ≤ n →
          0 ≤ ({ name := "b", size := formatBytes 4096, rawSize := 4096 } : PackageSizeInfo).rawSize)) :=
  ⟨rfl, C8_rawSize_integer "b" docLatest4096 _ rfl⟩

/-- Claim C9 counterexample: an `.npmrc` consisting of a line that matches
the auth-token pattern with an empty value makes the program exit with code
1 even though the organization argument is present and the token pattern
matched — exit code 1 is not confined to a missing argument or a
missing/unreadable token. -/
theorem C9_counterexample :
    programExitCode (some "acme")
        (some "//registry.npmjs.org/:_authToken=") = 1 ∧
      getNpmToken (some "//registry.npmjs.org/:_authToken=") = some "" := by
  constructor
  · decide
  · decide

/-- Claim C9 (amended): the startup guards are a function of the CLI
argument and the `.npmrc` content alone — they run before any network
request — and the exit code is always 0 or 1; it is 1 exactly when the
organization argument is absent or empty, or `getNpmToken` yields no token
(missing or unreadable file, or no line matching the pattern), or yields an
empty token after trimming — the case the original claim missed. -/
theorem C9_exit_code_iff (argv2 npmrc : Option String) :
    (programExitCode argv2 npmrc = 0 ∨ programExitCode argv2 npmrc = 1) ∧
      (programExitCode argv2 npmrc = 1 ↔
        (argv2 = none ∨ argv2 = some "" ∨ getNpmToken npmrc = none ∨
          getNpmToken npmrc = some "")) := by
  cases argv2 with
  | none => simp [programExitCode]
  | some org =>
    by_cases horg : org = ""
    · subst horg; simp [programExitCode]
    · cases htok : getNpmToken npmrc with
      | none => simp [programExitCode, horg, htok]
      | some token =>
        by_cases ht : token = ""
        · subst ht; simp [programExitCode, horg, htok]
        · simp [programExitCode, horg, htok, ht]

/-- Claim C10: the final order is a pure function of the listing order and
per-package fetch outcomes; `Promise.all` keeps results in submission order
and the modelled sort is stable, so for any fixed `rawSize` value the
matching records appear in the final output in exactly their listing
order. -/
theorem C10_stable_tie_order (packages : List String)
    (resp : String → FetchOutcome) (v : Int) :
    (finalOutput packages resp).filter (fun rec => rec.rawSize == v) =
      (packages.filterMap (fun pkg => getPackageSize pkg (resp pkg))).filter
        (fun rec => rec.rawSize == v) := by
  rw [finalOutput, keptPackages_runBatch, sortBySize_filter]

end NpmCheck
